import Mathlib

/-!
Verification of the in-memory task-collection core of rust-todo-cli.

Shallow embedding of `src/task.rs`, `src/todo_list.rs`, `src/error.rs` and
`src/storage.rs`. Machine integers (`u32`) are embedded as `Nat`; where a claim
depends on the `u32` typing discipline (JSON round-trip through the `u32`
deserializer) the bound `< 2^32` appears as an explicit hypothesis.
Timestamps (`chrono::DateTime<Utc>`) are abstracted as natural numbers ordered
as instants; the clock reads (`Utc::now()`) become explicit `now` arguments.
-/

set_option maxHeartbeats 1000000

namespace TodoCli

/-- Embeds enum `Priority` from `src/task.rs`. -/
inductive Priority where
  | High
  | Medium
  | Low
deriving DecidableEq, Repr

/-- Embeds `str::to_lowercase` as the character-wise ASCII lowercasing: Rust's
`to_lowercase` agrees with it on every ASCII input, and no non-ASCII string lowercases to
the ASCII tokens the parser accepts. (Character-wise so that it evaluates structurally.) -/
def toLowerStr (s : String) : String := ⟨s.data.map Char.toLower⟩

/-- Embeds `Priority::from_str` in `src/task.rs`: matches the lowercased input against
the or-patterns `high | h`, `medium | m`, `low | l` (an if-chain in this embedding);
anything else errors with a message naming the raw input. -/
def Priority.from_str (s : String) : Except String Priority :=
  let t := toLowerStr s
  if t = "high" ∨ t = "h" then .ok .High
  else if t = "medium" ∨ t = "m" then .ok .Medium
  else if t = "low" ∨ t = "l" then .ok .Low
  else .error ("Invalid priority: " ++ s)

/-- Embeds the numeric rank closure `priority_order` inside `TodoList::tasks_by_priority`
in `src/todo_list.rs`: High 0, Medium 1, Low 2. -/
def priority_order : Priority → Nat
  | .High => 0
  | .Medium => 1
  | .Low => 2

/-- Embeds struct `Task` from `src/task.rs`. -/
structure Task where
  id : Nat
  title : String
  completed : Bool
  priority : Priority
  created_at : Nat
  due_date : Option Nat
deriving DecidableEq, Repr

/-- Embeds `Task::new` from `src/task.rs`: `completed` starts false, `created_at` is the
clock value (explicit `now` argument here). -/
def Task.new (id : Nat) (title : String) (priority : Priority) (due_date : Option Nat)
    (now : Nat) : Task :=
  { id := id, title := title, completed := false, priority := priority,
    created_at := now, due_date := due_date }

/-- Embeds `Task::complete` from `src/task.rs`. -/
def Task.complete (t : Task) : Task := { t with completed := true }

/-- Embeds `Task::is_overdue` from `src/task.rs`: some due date, not completed, and
`now > due`. -/
def Task.is_overdue (t : Task) (now : Nat) : Bool :=
  match t.due_date with
  | some due => !t.completed && decide (due < now)
  | none => false

/-- Embeds struct `TodoList` from `src/todo_list.rs`. -/
structure TodoList where
  tasks : List Task
  next_id : Nat
deriving DecidableEq, Repr

/-- Embeds `TodoList::new`. -/
def TodoList.new : TodoList := { tasks := [], next_id := 1 }

/-- Embeds `TodoList::add_task`: the assigned id is the current `next_id`, the task is
pushed at the end, `next_id` is incremented, and the id is returned (paired here with the
updated list). -/
def TodoList.add_task (l : TodoList) (title : String) (priority : Priority)
    (due_date : Option Nat) (now : Nat) : Nat × TodoList :=
  let id := l.next_id
  let task := Task.new id title priority due_date now
  (id, { tasks := l.tasks ++ [task], next_id := l.next_id + 1 })

/-- Embeds `TodoList::list_tasks`. -/
def TodoList.list_tasks (l : TodoList) : List Task := l.tasks

/-- Embeds `TodoList::list_pending_tasks`. -/
def TodoList.list_pending_tasks (l : TodoList) : List Task :=
  l.tasks.filter (fun t => !t.completed)

/-- Embeds `TodoList::list_completed_tasks`. -/
def TodoList.list_completed_tasks (l : TodoList) : List Task :=
  l.tasks.filter (fun t => t.completed)

/-- Embeds `TodoList::find_task`: first task with the given id. -/
def TodoList.find_task (l : TodoList) (id : Nat) : Option Task :=
  l.tasks.find? (fun t => t.id == id)

/-- Embeds the mutation through `TodoList::find_task_mut` used by `complete_task`:
set `completed` on the first task whose id matches, leave everything else alone. -/
def completeFirst : List Task → Nat → List Task
  | [], _ => []
  | t :: ts, i => if t.id = i then t.complete :: ts else t :: completeFirst ts i

/-- Embeds `TodoList::complete_task`: if some task has the id, complete the first such
task (the one `find_task_mut` returns) and answer `Ok(())`; otherwise answer the error
string built by the source. The post state is returned alongside the result. -/
def TodoList.complete_task (l : TodoList) (id : Nat) : Except String Unit × TodoList :=
  if l.tasks.any (fun t => t.id == id) then
    (.ok (), { l with tasks := completeFirst l.tasks id })
  else
    (.error ("Task with id " ++ toString id ++ " not found"), l)

/-- Embeds `TodoList::delete_task`: `Vec::retain` keeps exactly the tasks whose id
differs, then the result is `Ok(())` iff the length shrank. The retained list is the
post state in both branches, as in the source. -/
def TodoList.delete_task (l : TodoList) (id : Nat) : Except String Unit × TodoList :=
  let remaining := l.tasks.filter (fun t => !(t.id == id))
  let l2 : TodoList := { l with tasks := remaining }
  if remaining.length < l.tasks.length then (.ok (), l2)
  else (.error ("Task with id " ++ toString id ++ " not found"), l2)

/-- Embeds `TodoList::len`. -/
def TodoList.len (l : TodoList) : Nat := l.tasks.length

/-- Embeds `TodoList::is_empty`. -/
def TodoList.is_empty (l : TodoList) : Bool := l.tasks.isEmpty

/-- Comparator relation of `TodoList::tasks_by_priority`: `priority_order` of the left
priority at most that of the right. -/
def taskLE (a b : Task) : Prop := priority_order a.priority ≤ priority_order b.priority

instance : DecidableRel taskLE := fun a b =>
  inferInstanceAs (Decidable (priority_order a.priority ≤ priority_order b.priority))

instance : IsTotal Task taskLE := ⟨fun a b => Nat.le_total _ _⟩

instance : IsTrans Task taskLE := ⟨fun _ _ _ hab hbc => Nat.le_trans hab hbc⟩

/-- Embeds `TodoList::tasks_by_priority` from `src/todo_list.rs`. Rust's `slice::sort_by`
is specified as a stable sort driven by the comparator, and the stable sort of a list by a
total preorder is extensionally unique, so it is embedded as `List.insertionSort` by the
comparator's relation, which is exactly that stable sort. -/
def TodoList.tasks_by_priority (l : TodoList) : List Task :=
  l.tasks.insertionSort taskLE

/-- Embeds `TodoList::overdue_tasks` (clock read made explicit). -/
def TodoList.overdue_tasks (l : TodoList) (now : Nat) : List Task :=
  l.tasks.filter (fun t => t.is_overdue now)

/-- Embeds enum `TodoError` from `src/error.rs`. The wrapped `std::io::Error` and
`serde_json::Error` payloads are abstracted to their message strings. -/
inductive TodoError where
  | TaskNotFound (id : Nat)
  | IoError (msg : String)
  | SerdeError (msg : String)
  | InvalidPriority (p : String)
  | InvalidDateFormat (d : String)
  | Custom (msg : String)
deriving DecidableEq, Repr

/-- Embeds the `Display` impl for `TodoError` in `src/error.rs`, text reproduced
verbatim (quotes written as the escape \x27). -/
def TodoError.display : TodoError → String
  | .TaskNotFound id => "❌ Task with ID " ++ toString id ++ " not found"
  | .IoError e => "❌ File operation failed: " ++ e
  | .SerdeError e => "❌ JSON parsing failed: " ++ e
  | .InvalidPriority p => "❌ Invalid priority \x27" ++ p ++ "\x27.  Use:  high, medium, or low"
  | .InvalidDateFormat d => "❌ Invalid date format \x27" ++ d ++ "\x27. Expected:  YYYY-MM-DD"
  | .Custom m => "❌ Error: " ++ m

/-- Mutating operations of the public `TodoList` surface, for stating the invariant and
state-machine claims about arbitrary operation sequences. -/
inductive Op where
  | add (title : String) (priority : Priority) (due_date : Option Nat) (now : Nat)
  | complete (id : Nat)
  | delete (id : Nat)

/-- State reached after one public mutating operation. -/
def applyOp (l : TodoList) : Op → TodoList
  | .add title p due now => (l.add_task title p due now).2
  | .complete i => (l.complete_task i).2
  | .delete i => (l.delete_task i).2

/-- State reached after a sequence of public mutating operations. -/
def applyOps (l : TodoList) (ops : List Op) : TodoList := ops.foldl applyOp l

/-- The claimed collection invariant: `next_id` is strictly greater than the id of every
task in the collection. -/
def Inv (l : TodoList) : Prop := ∀ t ∈ l.tasks, t.id < l.next_id

instance (l : TodoList) : Decidable (Inv l) :=
  inferInstanceAs (Decidable (∀ t ∈ l.tasks, t.id < l.next_id))

/-- Runs a sequence of `add_task` calls (argument tuples: title, priority, due date,
clock value), collecting the returned ids in call order. -/
def addAll (l : TodoList) : List (String × Priority × Option Nat × Nat) → List Nat
  | [] => []
  | (title, p, due, now) :: rest =>
    (l.add_task title p due now).1 :: addAll (l.add_task title p due now).2 rest

/-! ### Persistence (`src/storage.rs`)

`serde_json` is a third-party library; it is modelled by its documented behaviour at the
level of JSON documents. A byte string on disk either parses as a JSON document or it does
not, and `serde_json`'s contract is that `from_str` applied to the output of
`to_string_pretty` recovers the document that was printed. The string layer is therefore
abstracted: a stored file holds either a JSON document (standing for any byte string that
parses to it — such strings are never blank) or an unparseable raw string (covering both
blank files and malformed content). -/

/-- JSON documents as far as this data model exercises them. JSON numbers occur here only
as nonnegative integers (`u32` ids/counter and the abstracted timestamps). -/
inductive JValue where
  | null
  | bool (b : Bool)
  | num (n : Nat)
  | str (s : String)
  | arr (elems : List JValue)
  | obj (fields : List (String × JValue))

/-- Serde serialization of `Priority` (derive `Serialize` on a fieldless enum: the
variant name as a JSON string). -/
def priorityToJson (p : Priority) : JValue :=
  match p with
  | .High => .str "High"
  | .Medium => .str "Medium"
  | .Low => .str "Low"

/-- Serde serialization of the optional due date: `None` becomes JSON null. -/
def dueDateToJson : Option Nat → JValue
  | some d => .num d
  | none => .null

/-- Serde serialization of `Task` (derive `Serialize` in `src/task.rs`): an object with
the struct fields in declaration order. The `chrono` timestamp rendering is abstracted to
the numeric instant. -/
def taskToJson (t : Task) : JValue :=
  .obj [("id", .num t.id), ("title", .str t.title), ("completed", .bool t.completed),
        ("priority", priorityToJson t.priority), ("created_at", .num t.created_at),
        ("due_date", dueDateToJson t.due_date)]

/-- Serde serialization of `TodoList` (derive `Serialize` in `src/todo_list.rs`). -/
def todoListToJson (l : TodoList) : JValue :=
  .obj [("tasks", .arr (l.tasks.map taskToJson)), ("next_id", .num l.next_id)]

/-- Field lookup in a deserialized JSON object: serde's derive resolves struct fields by
name; a required field that is absent is an error. -/
def jField (fields : List (String × JValue)) (name : String) : Except String JValue :=
  match fields.find? (fun f => f.1 == name) with
  | some f => .ok f.2
  | none => .error ("missing field " ++ name)

/-- Serde deserialization of a `u32` (ids and `next_id`): an integer below 2^32. -/
def u32FromJson : JValue → Except String Nat
  | .num n => if n < 4294967296 then .ok n else .error "integer out of range for u32"
  | _ => .error "expected u32"

/-- Serde deserialization of a string field. -/
def strFromJson : JValue → Except String String
  | .str s => .ok s
  | _ => .error "expected a string"

/-- Serde deserialization of a boolean field. -/
def boolFromJson : JValue → Except String Bool
  | .bool b => .ok b
  | _ => .error "expected a boolean"

/-- Serde deserialization of `Priority`: exactly the three variant names. -/
def priorityFromJson : JValue → Except String Priority
  | .str s =>
    if s = "High" then .ok .High
    else if s = "Medium" then .ok .Medium
    else if s = "Low" then .ok .Low
    else .error ("unknown variant " ++ s)
  | _ => .error "expected a Priority variant"

/-- Serde deserialization of a timestamp (abstracted numeric instant). -/
def dateTimeFromJson : JValue → Except String Nat
  | .num n => .ok n
  | _ => .error "expected a timestamp"

/-- Serde deserialization of `Option` of timestamp: null becomes `none`. -/
def dueDateFromJson : JValue → Except String (Option Nat)
  | .null => .ok none
  | v => (dateTimeFromJson v).map some

/-- Lookup of the `due_date` field: serde's derive treats a missing `Option` field as
`None` (the saved format always writes the field, as null when absent). -/
def optDueDateField (fields : List (String × JValue)) : Except String (Option Nat) :=
  match fields.find? (fun f => f.1 == "due_date") with
  | some f => dueDateFromJson f.2
  | none => .ok none

/-- Serde deserialization of `Task` (derive `Deserialize` in `src/task.rs`). -/
def taskFromJson (j : JValue) : Except String Task :=
  match j with
  | .obj fields =>
    (jField fields "id").bind fun jid =>
    (u32FromJson jid).bind fun id =>
    (jField fields "title").bind fun jtitle =>
    (strFromJson jtitle).bind fun title =>
    (jField fields "completed").bind fun jc =>
    (boolFromJson jc).bind fun completed =>
    (jField fields "priority").bind fun jp =>
    (priorityFromJson jp).bind fun priority =>
    (jField fields "created_at").bind fun jca =>
    (dateTimeFromJson jca).bind fun created_at =>
    (optDueDateField fields).bind fun due_date =>
    .ok { id := id, title := title, completed := completed, priority := priority,
          created_at := created_at, due_date := due_date }
  | _ => .error "expected a Task object"

/-- Serde deserialization of a JSON sequence of tasks, element by element. -/
def tasksFromJson : List JValue → Except String (List Task)
  | [] => .ok []
  | j :: js =>
    (taskFromJson j).bind fun t =>
    (tasksFromJson js).bind fun ts =>
    .ok (t :: ts)

/-- Serde deserialization of `TodoList` (derive `Deserialize` in `src/todo_list.rs`). -/
def todoListFromJson (j : JValue) : Except String TodoList :=
  match j with
  | .obj fields =>
    (jField fields "tasks").bind fun jt =>
    (match jt with
     | .arr elems => tasksFromJson elems
     | _ => .error "expected a sequence").bind fun tasks =>
    (jField fields "next_id").bind fun jn =>
    (u32FromJson jn).bind fun next_id =>
    .ok { tasks := tasks, next_id := next_id }
  | _ => .error "expected a TodoList object"

/-- Model of one file's bytes as far as the storage layer inspects them: either a string
that parses as the JSON document held, or a raw string that does not parse as JSON
(blank or malformed). -/
inductive FileContent where
  | parsed (doc : JValue)
  | unparsed (s : String)

/-- Model of the file system: a map from paths to file contents (`none` means the path
does not exist). -/
def FS : Type := String → Option FileContent

/-- Embeds `save_to_file` from `src/storage.rs`: serialize the whole list and overwrite
the file at the path. The model's file system always accepts the write (the `IoError`
branch of the source is the write failing, outside this model). -/
def save_to_file (l : TodoList) (path : String) (fs : FS) : FS :=
  fun p => if p = path then some (.parsed (todoListToJson l)) else fs p

/-- Embeds Rust's `char::is_whitespace` — the Unicode White_Space property, which is
exactly what `str::trim` strips: U+0009..U+000D, U+0020, U+0085, U+00A0, U+1680,
U+2000..U+200A, U+2028, U+2029, U+202F, U+205F and U+3000. -/
def charIsRustWhitespace (c : Char) : Bool :=
  let n := c.toNat
  (decide (0x09 ≤ n) && decide (n ≤ 0x0D)) || n == 0x20 || n == 0x85 || n == 0xA0 ||
  n == 0x1680 || (decide (0x2000 ≤ n) && decide (n ≤ 0x200A)) || n == 0x2028 ||
  n == 0x2029 || n == 0x202F || n == 0x205F || n == 0x3000

/-- Embeds `load_from_file` from `src/storage.rs`: a missing file gives a fresh empty
list; blank content gives a fresh empty list; content that does not parse, or parses to a
document the derive rejects, gives `TodoError::SerdeError` (the parse-failure message for
raw content is abstracted to a fixed string). The source's blank test
`content.trim().is_empty()` holds exactly when every character of the content has the
Unicode White_Space property that `str::trim` strips, and is embedded as that character
test via `charIsRustWhitespace`. -/
def load_from_file (path : String) (fs : FS) : Except TodoError TodoList :=
  match fs path with
  | none => .ok TodoList.new
  | some (.unparsed s) =>
    if s.data.all charIsRustWhitespace then .ok TodoList.new
    else .error (.SerdeError "expected value")
  | some (.parsed doc) =>
    match todoListFromJson doc with
    | .ok l => .ok l
    | .error e => .error (.SerdeError e)

/-- Embeds `file_exists` from `src/storage.rs`. -/
def file_exists (path : String) (fs : FS) : Bool := (fs path).isSome

/-- Concrete list for the stable-sort scenario of the spec: T1 Low, T2 High, T3 Medium,
T4 High inserted in this order into a fresh list. -/
def sortScenario : TodoList :=
  ((((TodoList.new.add_task "T1" .Low none 0).2.add_task "T2" .High none 0).2.add_task
      "T3" .Medium none 0).2.add_task "T4" .High none 0).2

/-! ### Helper lemmas -/

/-- Unfolding equation for `add_task`. -/
theorem add_task_eq (l : TodoList) (title : String) (p : Priority) (due : Option Nat)
    (now : Nat) :
    l.add_task title p due now =
      (l.next_id, ⟨l.tasks ++ [Task.new l.next_id title p due now], l.next_id + 1⟩) := rfl

/-- Unfolding equation for `complete_task`. -/
theorem complete_task_eq (l : TodoList) (i : Nat) :
    l.complete_task i =
      if l.tasks.any (fun t => t.id == i) then
        (.ok (), ⟨completeFirst l.tasks i, l.next_id⟩)
      else
        (.error ("Task with id " ++ toString i ++ " not found"), l) := rfl

/-- Unfolding equation for `delete_task`. -/
theorem delete_task_eq (l : TodoList) (i : Nat) :
    l.delete_task i =
      if (l.tasks.filter (fun t => !(t.id == i))).length < l.tasks.length then
        (.ok (), ⟨l.tasks.filter (fun t => !(t.id == i)), l.next_id⟩)
      else
        (.error ("Task with id " ++ toString i ++ " not found"),
          ⟨l.tasks.filter (fun t => !(t.id == i)), l.next_id⟩) := rfl

/-- Filtering strictly shrinks a list exactly when some element fails the predicate. -/
theorem length_filter_lt_iff {α : Type} {p : α → Bool} {l : List α} :
    (l.filter p).length < l.length ↔ ∃ x ∈ l, ¬ p x := by
  constructor
  · intro h
    by_contra hall
    push_neg at hall
    rw [List.filter_eq_self.mpr hall] at h
    exact Nat.lt_irrefl _ h
  · rintro ⟨x, hx, hpx⟩
    rcases Nat.lt_or_ge (l.filter p).length l.length with h | h
    · exact h
    · exact absurd (List.mem_filter.mp ((l.filter_sublist.eq_of_length_le h) ▸ hx)).2 hpx

/-- `completeFirst` is the identity when no id matches. -/
theorem completeFirst_of_no_match {ts : List Task} {i : Nat} (h : ∀ t ∈ ts, t.id ≠ i) :
    completeFirst ts i = ts := by
  induction ts with
  | nil => rfl
  | cons t ts ih =>
    simp only [completeFirst]
    rw [if_neg (h t (List.mem_cons_self _ _)),
      ih (fun u hu => h u (List.mem_cons_of_mem _ hu))]

/-- `completeFirst` preserves the multiset of ids (positions and ids untouched). -/
theorem completeFirst_map_id (ts : List Task) (i : Nat) :
    (completeFirst ts i).map Task.id = ts.map Task.id := by
  induction ts with
  | nil => rfl
  | cons t ts ih =>
    simp only [completeFirst]
    by_cases ht : t.id = i
    · rw [if_pos ht]; rfl
    · rw [if_neg ht]; simpa using ih

/-- After completing id `i`, looking up id `i` finds the completed version of what was
found before. -/
theorem find?_completeFirst_self {ts : List Task} {i : Nat} {t : Task}
    (h : ts.find? (fun u => u.id == i) = some t) :
    (completeFirst ts i).find? (fun u => u.id == i) = some t.complete := by
  induction ts with
  | nil => simp at h
  | cons u us ih =>
    by_cases hu : u.id = i
    · simp only [completeFirst, if_pos hu]
      rw [List.find?_cons] at h
      simp only [hu, beq_self_eq_true] at h
      rw [List.find?_cons]
      have hc : (u.complete.id == i) = true := by simp [Task.complete, hu]
      simp only [hc]
      cases h
      rfl
    · simp only [completeFirst, if_neg hu]
      rw [List.find?_cons] at h
      have hne : (u.id == i) = false := by simp [hu]
      simp only [hne] at h
      rw [List.find?_cons]
      simp only [hne]
      exact ih h

/-- Completing id `j` does not change what a lookup of a different id `i` finds. -/
theorem find?_completeFirst_other {ts : List Task} {i j : Nat} (hij : j ≠ i) :
    (completeFirst ts j).find? (fun u => u.id == i) = ts.find? (fun u => u.id == i) := by
  induction ts with
  | nil => rfl
  | cons u us ih =>
    by_cases hu : u.id = j
    · simp only [completeFirst, if_pos hu]
      have h1 : (u.complete.id == i) = false := by
        simp [Task.complete, hu]; exact hij
      have h2 : (u.id == i) = false := by
        simp [hu]; exact hij
      rw [List.find?_cons, List.find?_cons]
      simp only [h1, h2]
    · simp only [completeFirst, if_neg hu]
      rw [List.find?_cons, List.find?_cons]
      cases hpu : (u.id == i) <;> simp only [ih]

/-- Deleting id `j` does not change what a lookup of a different id `i` finds. -/
theorem find?_filter_ne {ts : List Task} {i j : Nat} (hij : j ≠ i) :
    (ts.filter (fun t => !(t.id == j))).find? (fun t => t.id == i)
      = ts.find? (fun t => t.id == i) := by
  induction ts with
  | nil => rfl
  | cons u us ih =>
    by_cases hu : u.id = j
    · have h1 : (!(u.id == j)) = false := by simp [hu]
      have h2 : (u.id == i) = false := by
        simp [hu]; exact hij
      rw [List.filter_cons, List.find?_cons]
      simp only [h1, h2, Bool.false_eq_true, if_false]
      exact ih
    · have h1 : (!(u.id == j)) = true := by simp [hu]
      rw [List.filter_cons]
      simp only [h1, if_true]
      rw [List.find?_cons, List.find?_cons]
      cases hpu : (u.id == i) <;> simp only [ih]

/-- `add_task` preserves the id invariant. -/
theorem inv_add_task {l : TodoList} (h : Inv l) (title : String) (p : Priority)
    (due : Option Nat) (now : Nat) : Inv (l.add_task title p due now).2 := by
  intro t ht
  rw [add_task_eq] at ht ⊢
  rcases List.mem_append.mp ht with h1 | h1
  · exact Nat.lt_succ_of_lt (h t h1)
  · rw [List.mem_singleton] at h1
    subst h1
    exact Nat.lt_succ_self _

/-- `complete_task` preserves the id invariant (ids and `next_id` untouched). -/
theorem inv_complete_task {l : TodoList} (h : Inv l) (i : Nat) :
    Inv (l.complete_task i).2 := by
  rw [complete_task_eq]
  by_cases hc : l.tasks.any (fun t => t.id == i)
  · rw [if_pos hc]
    intro t ht
    have : t.id ∈ (completeFirst l.tasks i).map Task.id := List.mem_map_of_mem _ ht
    rw [completeFirst_map_id] at this
    rcases List.mem_map.mp this with ⟨u, hu, hid⟩
    exact hid ▸ h u hu
  · rw [if_neg hc]
    exact h

/-- `delete_task` preserves the id invariant (survivors are a sublist). -/
theorem inv_delete_task {l : TodoList} (h : Inv l) (i : Nat) :
    Inv (l.delete_task i).2 := by
  rw [delete_task_eq]
  split
  · intro t ht
    exact h t (List.mem_filter.mp ht).1
  · intro t ht
    exact h t (List.mem_filter.mp ht).1

/-- Every public mutating operation preserves the id invariant. -/
theorem inv_applyOp {l : TodoList} (h : Inv l) (op : Op) : Inv (applyOp l op) := by
  cases op with
  | add title p due now => exact inv_add_task h title p due now
  | complete i => exact inv_complete_task h i
  | delete i => exact inv_delete_task h i

/-- Every sequence of public mutating operations preserves the id invariant. -/
theorem inv_applyOps {l : TodoList} (h : Inv l) (ops : List Op) : Inv (applyOps l ops) := by
  induction ops generalizing l with
  | nil => exact h
  | cons op ops ih => exact ih (inv_applyOp h op)

/-- `next_id` never decreases under one operation. -/
theorem next_id_le_applyOp (l : TodoList) (op : Op) :
    l.next_id ≤ (applyOp l op).next_id := by
  cases op with
  | add title p due now => rw [applyOp, add_task_eq]; exact Nat.le_succ _
  | complete i =>
    rw [applyOp, complete_task_eq]
    split <;> exact Nat.le_refl _
  | delete i =>
    rw [applyOp, delete_task_eq]
    split <;> exact Nat.le_refl _

/-- `next_id` never decreases under a sequence of operations. -/
theorem next_id_le_applyOps (l : TodoList) (ops : List Op) :
    l.next_id ≤ (applyOps l ops).next_id := by
  induction ops generalizing l with
  | nil => exact Nat.le_refl _
  | cons op ops ih =>
    exact Nat.le_trans (next_id_le_applyOp l op) (ih (applyOp l op))

/-- Every id returned by a run of `add_task` calls is at least the starting `next_id`. -/
theorem le_of_mem_addAll {l : TodoList}
    {args : List (String × Priority × Option Nat × Nat)} :
    ∀ i ∈ addAll l args, l.next_id ≤ i := by
  induction args generalizing l with
  | nil => intro i hi; simp [addAll] at hi
  | cons a rest ih =>
    obtain ⟨title, p, due, now⟩ := a
    intro i hi
    rw [addAll] at hi
    rcases List.mem_cons.mp hi with h1 | h1
    · rw [h1, add_task_eq]
    · have := ih i h1
      rw [add_task_eq] at this
      exact Nat.le_of_succ_le this

/-- The ids returned by a run of `add_task` calls are strictly increasing. -/
theorem pairwise_lt_addAll (l : TodoList)
    (args : List (String × Priority × Option Nat × Nat)) :
    (addAll l args).Pairwise (· < ·) := by
  induction args generalizing l with
  | nil => exact List.Pairwise.nil
  | cons a rest ih =>
    obtain ⟨title, p, due, now⟩ := a
    rw [addAll]
    refine List.Pairwise.cons ?_ (ih _)
    intro j hj
    have := le_of_mem_addAll j hj
    rw [add_task_eq] at this ⊢
    exact Nat.lt_of_succ_le this

/-! ### Claim theorems -/

/-- C1: ids returned by any run of `add_task` calls are strictly increasing, hence
pairwise unique; a fresh list satisfies the invariant that `next_id` strictly exceeds
every task id; every public operation preserves that invariant; `next_id` never decreases
across any operation sequence; and the id of any task of an invariant-satisfying list (in
particular a later deleted one) is never the id returned by a later `add_task`. -/
theorem c1_ids_unique_invariant_no_reuse (l : TodoList)
    (args : List (String × Priority × Option Nat × Nat)) (ops : List Op) (t : Task)
    (title : String) (p : Priority) (due : Option Nat) (now : Nat)
    (hInv : Inv l) (ht : t ∈ l.tasks) :
    (addAll l args).Pairwise (· < ·) ∧
    Inv TodoList.new ∧
    (∀ op : Op, Inv (applyOp l op)) ∧
    l.next_id ≤ (applyOps l ops).next_id ∧
    ((applyOps l ops).add_task title p due now).1 ≠ t.id := by
  refine ⟨pairwise_lt_addAll l args, ?_, fun op => inv_applyOp hInv op,
    next_id_le_applyOps l ops, ?_⟩
  · intro u hu
    simp [TodoList.new] at hu
  · rw [add_task_eq]
    exact (Nat.lt_of_lt_of_le (hInv t ht) (next_id_le_applyOps l ops)).ne'

/-- Witness for C1 at a concrete one-task list, one delete, one pending add batch. -/
theorem c1_ids_unique_invariant_no_reuse_witness :
    (addAll ⟨[⟨1, "a", false, .High, 0, none⟩], 2⟩ [("b", .Medium, none, 5)]).Pairwise
        (· < ·) ∧
    Inv TodoList.new ∧
    (∀ op : Op, Inv (applyOp ⟨[⟨1, "a", false, .High, 0, none⟩], 2⟩ op)) ∧
    (⟨[⟨1, "a", false, .High, 0, none⟩], 2⟩ : TodoList).next_id ≤
      (applyOps ⟨[⟨1, "a", false, .High, 0, none⟩], 2⟩ [.delete 1]).next_id ∧
    ((applyOps ⟨[⟨1, "a", false, .High, 0, none⟩], 2⟩ [.delete 1]).add_task "c" .Low
        none 9).1 ≠ (⟨1, "a", false, .High, 0, none⟩ : Task).id :=
  c1_ids_unique_invariant_no_reuse ⟨[⟨1, "a", false, .High, 0, none⟩], 2⟩
    [("b", .Medium, none, 5)] [.delete 1] ⟨1, "a", false, .High, 0, none⟩ "c" .Low none 9
    (by decide) (by decide)

/-- C10: a `complete_task` or `delete_task` call on an id no task carries fails and
leaves the whole collection (task sequence and `next_id`) exactly as it was. -/
theorem c10_failed_mutations_keep_state (l : TodoList) (i : Nat)
    (h : ∀ t ∈ l.tasks, t.id ≠ i) :
    l.complete_task i = (.error ("Task with id " ++ toString i ++ " not found"), l) ∧
    l.delete_task i = (.error ("Task with id " ++ toString i ++ " not found"), l) := by
  have hfe : l.tasks.filter (fun t => !(t.id == i)) = l.tasks :=
    List.filter_eq_self.mpr (fun a ha => by simp [h a ha])
  have hany : ¬(l.tasks.any (fun t => t.id == i) = true) := by
    rw [List.any_eq_true]
    rintro ⟨x, hx, hpx⟩
    exact h x hx (by simpa using hpx)
  constructor
  · rw [complete_task_eq, if_neg hany]
  · rw [delete_task_eq, hfe, if_neg (Nat.lt_irrefl _)]

/-- Witness for C10 at a concrete one-task list and the absent id 3. -/
theorem c10_failed_mutations_keep_state_witness :
    (⟨[⟨1, "a", false, .High, 0, none⟩], 2⟩ : TodoList).complete_task 3
        = (.error ("Task with id " ++ toString 3 ++ " not found"),
            ⟨[⟨1, "a", false, .High, 0, none⟩], 2⟩) ∧
    (⟨[⟨1, "a", false, .High, 0, none⟩], 2⟩ : TodoList).delete_task 3
        = (.error ("Task with id " ++ toString 3 ++ " not found"),
            ⟨[⟨1, "a", false, .High, 0, none⟩], 2⟩) :=
  c10_failed_mutations_keep_state ⟨[⟨1, "a", false, .High, 0, none⟩], 2⟩ 3 (by decide)

/-- C3 as stated is false: the failing `complete_task` returns the plain string
`Task with id 5 not found` (its error channel is `Result<(), String>`), which is not the
`TodoError::TaskNotFound` error of `src/error.rs` (whose rendering is
`❌ Task with ID 5 not found`). -/
theorem c3_complete_error_counterexample :
    (TodoList.new.complete_task 5).1 = .error "Task with id 5 not found" ∧
    TodoError.display (.TaskNotFound 5) = "❌ Task with ID 5 not found" ∧
    (TodoList.new.complete_task 5).1 ≠ .error (TodoError.display (.TaskNotFound 5)) := by
  refine ⟨rfl, rfl, fun hcontra => ?_⟩
  have h2 : ("Task with id 5 not found" : String) = TodoError.display (.TaskNotFound 5) :=
    Except.error.inj hcontra
  exact absurd h2 (by decide)

/-- C3 amended: on an absent id, `complete_task` fails with the error *string*
`Task with id {id} not found` naming exactly that id (not the `TodoError::TaskNotFound`
variant) and changes nothing; on a present id it succeeds — also when the task is already
completed — and the task found at that id afterwards is completed. -/
theorem c3_complete_found_or_not (l : TodoList) (i : Nat) :
    ((∀ t ∈ l.tasks, t.id ≠ i) →
      l.complete_task i = (.error ("Task with id " ++ toString i ++ " not found"), l)) ∧
    (∀ t, t ∈ l.tasks → t.id = i →
      (l.complete_task i).1 = .ok () ∧
      ∃ t', (l.complete_task i).2.find_task i = some t' ∧ t'.completed = true) := by
  constructor
  · intro h
    have hany : ¬(l.tasks.any (fun u => u.id == i) = true) := by
      rw [List.any_eq_true]
      rintro ⟨x, hx, hpx⟩
      exact h x hx (by simpa using hpx)
    rw [complete_task_eq, if_neg hany]
  · intro t ht hid
    have hany : l.tasks.any (fun u => u.id == i) = true :=
      List.any_eq_true.mpr ⟨t, ht, by simp [hid]⟩
    have hfind : ∃ u, l.tasks.find? (fun u => u.id == i) = some u := by
      cases hf : l.tasks.find? (fun u => u.id == i) with
      | some u => exact ⟨u, rfl⟩
      | none =>
        rw [List.find?_eq_none] at hf
        exact absurd (by simp [hid] : (t.id == i) = true) (hf t ht)
    obtain ⟨u, hu⟩ := hfind
    rw [complete_task_eq, if_pos hany]
    exact ⟨rfl, u.complete,
      by simpa [TodoList.find_task] using find?_completeFirst_self hu, rfl⟩

/-- Witness for C3 amended: absent id fails with the message; completing an
already-completed task still succeeds and the task stays completed. -/
theorem c3_complete_found_or_not_witness :
    (⟨[⟨1, "a", true, .High, 0, none⟩], 2⟩ : TodoList).complete_task 7
        = (.error ("Task with id " ++ toString 7 ++ " not found"),
            ⟨[⟨1, "a", true, .High, 0, none⟩], 2⟩) ∧
    ((⟨[⟨1, "a", true, .High, 0, none⟩], 2⟩ : TodoList).complete_task 1).1 = .ok () ∧
    ∃ t', ((⟨[⟨1, "a", true, .High, 0, none⟩], 2⟩ : TodoList).complete_task 1).2.find_task
        1 = some t' ∧ t'.completed = true :=
  ⟨(c3_complete_found_or_not ⟨[⟨1, "a", true, .High, 0, none⟩], 2⟩ 7).1 (by decide),
   (c3_complete_found_or_not ⟨[⟨1, "a", true, .High, 0, none⟩], 2⟩ 1).2
     ⟨1, "a", true, .High, 0, none⟩ (by decide) rfl⟩

/-- C4 as stated is false on its error half: the failing `delete_task` returns the plain
string `Task with id 7 not found` (error channel `Result<(), String>`), not the
`TodoError::TaskNotFound` error of `src/error.rs`. -/
theorem c4_delete_error_counterexample :
    (TodoList.new.delete_task 7).1 = .error "Task with id 7 not found" ∧
    (TodoList.new.delete_task 7).1 ≠ .error (TodoError.display (.TaskNotFound 7)) := by
  refine ⟨rfl, fun hcontra => ?_⟩
  have h2 : ("Task with id 7 not found" : String) = TodoError.display (.TaskNotFound 7) :=
    Except.error.inj hcontra
  exact absurd h2 (by decide)

/-- C4 amended: deleting a present id succeeds, afterwards that id is not found, the
surviving tasks are exactly the others in their original order with all fields intact,
and `next_id` is unchanged; deleting an absent id fails with the error *string*
`Task with id {id} not found` naming exactly that id (not `TodoError::TaskNotFound`) and
changes nothing. -/
theorem c4_delete_found_or_not (l : TodoList) (i : Nat) :
    ((∃ t ∈ l.tasks, t.id = i) →
      (l.delete_task i).1 = .ok () ∧
      (l.delete_task i).2.find_task i = none ∧
      (l.delete_task i).2.tasks = l.tasks.filter (fun t => !(t.id == i)) ∧
      (l.delete_task i).2.next_id = l.next_id) ∧
    ((∀ t ∈ l.tasks, t.id ≠ i) →
      l.delete_task i = (.error ("Task with id " ++ toString i ++ " not found"), l)) := by
  constructor
  · rintro ⟨t, ht, hid⟩
    have hlt : (l.tasks.filter (fun u => !(u.id == i))).length < l.tasks.length :=
      length_filter_lt_iff.mpr ⟨t, ht, by simp [hid]⟩
    rw [delete_task_eq, if_pos hlt]
    refine ⟨rfl, ?_, rfl, rfl⟩
    rw [TodoList.find_task]
    rw [List.find?_eq_none]
    intro x hx
    have := (List.mem_filter.mp hx).2
    simpa using this
  · intro h
    have hfe : l.tasks.filter (fun u => !(u.id == i)) = l.tasks :=
      List.filter_eq_self.mpr (fun a ha => by simp [h a ha])
    rw [delete_task_eq, hfe, if_neg (Nat.lt_irrefl _)]

/-- Witness for C4 amended at a concrete two-task list: delete the present id 1, fail on
the absent id 9. -/
theorem c4_delete_found_or_not_witness :
    ((⟨[⟨1, "a", false, .High, 0, none⟩, ⟨2, "b", true, .Low, 1, none⟩], 3⟩ :
        TodoList).delete_task 1).1 = .ok () ∧
    ((⟨[⟨1, "a", false, .High, 0, none⟩, ⟨2, "b", true, .Low, 1, none⟩], 3⟩ :
        TodoList).delete_task 1).2.find_task 1 = none ∧
    ((⟨[⟨1, "a", false, .High, 0, none⟩, ⟨2, "b", true, .Low, 1, none⟩], 3⟩ :
        TodoList).delete_task 1).2.tasks =
      ([⟨1, "a", false, .High, 0, none⟩, ⟨2, "b", true, .Low, 1, none⟩] : List
          Task).filter (fun t => !(t.id == 1)) ∧
    ((⟨[⟨1, "a", false, .High, 0, none⟩, ⟨2, "b", true, .Low, 1, none⟩], 3⟩ :
        TodoList).delete_task 1).2.next_id =
      (⟨[⟨1, "a", false, .High, 0, none⟩, ⟨2, "b", true, .Low, 1, none⟩], 3⟩ :
        TodoList).next_id :=
  (c4_delete_found_or_not
      ⟨[⟨1, "a", false, .High, 0, none⟩, ⟨2, "b", true, .Low, 1, none⟩], 3⟩ 1).1
    ⟨⟨1, "a", false, .High, 0, none⟩, by decide, rfl⟩

/-- Serialization of `Priority` round-trips. -/
theorem priority_roundtrip (p : Priority) : priorityFromJson (priorityToJson p) = .ok p := by
  cases p <;> rfl

/-- Serialization of the optional due date round-trips. -/
theorem dueDate_roundtrip (d : Option Nat) : dueDateFromJson (dueDateToJson d) = .ok d := by
  cases d <;> rfl

/-- Deserializing a `u32` that is in range succeeds. -/
theorem u32FromJson_ok {n : Nat} (h : n < 4294967296) : u32FromJson (.num n) = .ok n := by
  simp only [u32FromJson]
  exact if_pos h

/-- Serialization of one `Task` round-trips when its id fits in `u32`. -/
theorem task_roundtrip (t : Task) (h : t.id < 4294967296) :
    taskFromJson (taskToJson t) = .ok t := by
  obtain ⟨id, title, completed, priority, created_at, due⟩ := t
  have key : taskFromJson (taskToJson ⟨id, title, completed, priority, created_at, due⟩)
      = (u32FromJson (.num id)).bind fun i =>
        (priorityFromJson (priorityToJson priority)).bind fun pr =>
        (dueDateFromJson (dueDateToJson due)).bind fun dd =>
        .ok ⟨i, title, completed, pr, created_at, dd⟩ := rfl
  rw [key, u32FromJson_ok h, priority_roundtrip, dueDate_roundtrip]
  rfl

/-- Serialization of a task sequence round-trips elementwise. -/
theorem tasks_roundtrip (ts : List Task) (h : ∀ t ∈ ts, t.id < 4294967296) :
    tasksFromJson (ts.map taskToJson) = .ok ts := by
  induction ts with
  | nil => rfl
  | cons t ts ih =>
    rw [List.map_cons, tasksFromJson, task_roundtrip t (h t (List.mem_cons_self _ _)),
      ih (fun u hu => h u (List.mem_cons_of_mem _ hu))]
    rfl

/-- Serialization of a whole `TodoList` round-trips under the `u32` bounds. -/
theorem todoList_roundtrip (l : TodoList) (hids : ∀ t ∈ l.tasks, t.id < 4294967296)
    (hnext : l.next_id < 4294967296) :
    todoListFromJson (todoListToJson l) = .ok l := by
  obtain ⟨tasks, next_id⟩ := l
  have key : todoListFromJson (todoListToJson ⟨tasks, next_id⟩)
      = (tasksFromJson (tasks.map taskToJson)).bind fun ts =>
        (u32FromJson (.num next_id)).bind fun n =>
        .ok ⟨ts, n⟩ := rfl
  rw [key, tasks_roundtrip tasks hids, u32FromJson_ok hnext]
  rfl

/-- C2: saving a list and loading it back from the same path recovers it exactly — same
task sequence in the same order with all fields equal, and the same `next_id`. The
hypotheses record the `u32` typing of ids and counter, which Rust enforces by type. -/
theorem c2_save_load_roundtrip (l : TodoList) (path : String) (fs : FS)
    (hids : ∀ t ∈ l.tasks, t.id < 4294967296) (hnext : l.next_id < 4294967296) :
    load_from_file path (save_to_file l path fs) = .ok l := by
  have h1 : save_to_file l path fs path = some (.parsed (todoListToJson l)) := by
    simp [save_to_file]
  simp only [load_from_file, h1]
  rw [todoList_roundtrip l hids hnext]

/-- Witness for C2 at a concrete two-task list and a fresh file system. -/
theorem c2_save_load_roundtrip_witness :
    load_from_file "todos.json"
        (save_to_file
          ⟨[⟨1, "a", false, .High, 0, some 3⟩, ⟨2, "b", true, .Low, 1, none⟩], 3⟩
          "todos.json" (fun _ => none))
      = .ok ⟨[⟨1, "a", false, .High, 0, some 3⟩, ⟨2, "b", true, .Low, 1, none⟩], 3⟩ :=
  c2_save_load_roundtrip
    ⟨[⟨1, "a", false, .High, 0, some 3⟩, ⟨2, "b", true, .Low, 1, none⟩], 3⟩
    "todos.json" (fun _ => none) (by decide) (by decide)

/-- C5: loading a nonexistent path, or a file whose content is blank, succeeds with a
fresh empty collection whose `next_id` is 1; loading malformed (unparseable, nonblank)
content fails with a serialization error. -/
theorem c5_load_missing_blank_malformed (path : String) (fs : FS) (s : String) :
    (fs path = none → load_from_file path fs = .ok TodoList.new) ∧
    (fs path = some (.unparsed s) → s.data.all charIsRustWhitespace = true →
      load_from_file path fs = .ok TodoList.new) ∧
    (fs path = some (.unparsed s) → s.data.all charIsRustWhitespace = false →
      ∃ msg, load_from_file path fs = .error (.SerdeError msg)) ∧
    TodoList.new.tasks = [] ∧ TodoList.new.next_id = 1 := by
  refine ⟨?_, ?_, ?_, rfl, rfl⟩
  · intro h
    simp only [load_from_file, h]
  · intro h htrim
    simp only [load_from_file, h]
    rw [if_pos htrim]
  · intro h htrim
    simp only [load_from_file, h]
    rw [if_neg (by rw [htrim]; exact Bool.false_ne_true)]
    exact ⟨_, rfl⟩

/-- Witness for C5: a file system with a blank file at `blank.json` (space, form feed,
no-break space and newline — White_Space characters beyond ASCII space), malformed
content at `bad.json`, and nothing at `missing.json`. -/
theorem c5_load_missing_blank_malformed_witness :
    load_from_file "missing.json"
        (fun p => if p = "blank.json" then some (.unparsed " \x0C\u00A0\n")
          else if p = "bad.json" then some (.unparsed "oops") else none)
      = .ok TodoList.new ∧
    load_from_file "blank.json"
        (fun p => if p = "blank.json" then some (.unparsed " \x0C\u00A0\n")
          else if p = "bad.json" then some (.unparsed "oops") else none)
      = .ok TodoList.new ∧
    ∃ msg, load_from_file "bad.json"
        (fun p => if p = "blank.json" then some (.unparsed " \x0C\u00A0\n")
          else if p = "bad.json" then some (.unparsed "oops") else none)
      = .error (.SerdeError msg) :=
  ⟨(c5_load_missing_blank_malformed "missing.json" _ "x").1 rfl,
   (c5_load_missing_blank_malformed "blank.json" _ " \x0C\u00A0\n").2.1 rfl (by decide),
   (c5_load_missing_blank_malformed "bad.json" _ "oops").2.2.1 rfl (by decide)⟩

/-- A task stays overdue-free once completed: `is_overdue` is false whenever `completed`
holds, whatever the clock says. -/
theorem is_overdue_of_completed {t : Task} (h : t.completed = true) (now : Nat) :
    t.is_overdue now = false := by
  rw [Task.is_overdue]
  cases t.due_date <;> simp [h]

/-- C6: `tasks_by_priority` is the stable sort of the task sequence by priority rank —
sorted by rank, a permutation of the tasks, with the subsequence of each priority class
preserved verbatim — and on the spec's scenario (T1 Low, T2 High, T3 Medium, T4 High
inserted in that order) it yields exactly [T2, T4, T3, T1]. -/
theorem c6_tasks_by_priority_stable_sort (l : TodoList) (p : Priority) :
    List.Sorted taskLE l.tasks_by_priority ∧
    l.tasks_by_priority.Perm l.tasks ∧
    l.tasks_by_priority.filter (fun t => t.priority == p)
      = l.tasks.filter (fun t => t.priority == p) ∧
    sortScenario.tasks_by_priority =
      [Task.new 2 "T2" .High none 0, Task.new 4 "T4" .High none 0,
       Task.new 3 "T3" .Medium none 0, Task.new 1 "T1" .Low none 0] := by
  refine ⟨List.sorted_insertionSort taskLE l.tasks,
    List.perm_insertionSort taskLE l.tasks, ?_, by decide⟩
  have hidem : (l.tasks.filter (fun t => t.priority == p)).filter
      (fun t => t.priority == p) = l.tasks.filter (fun t => t.priority == p) :=
    List.filter_eq_self.mpr (fun a ha => (List.mem_filter.mp ha).2)
  have hsub : List.Sublist (l.tasks.filter (fun t => t.priority == p))
      l.tasks_by_priority := by
    apply List.sublist_insertionSort
    · apply List.pairwise_of_forall_mem_list
      intro a ha b hb
      have hpa : a.priority = p := by simpa using (List.mem_filter.mp ha).2
      have hpb : b.priority = p := by simpa using (List.mem_filter.mp hb).2
      show priority_order a.priority ≤ priority_order b.priority
      rw [hpa, hpb]
    · exact List.filter_sublist l.tasks
  have hsub2 : List.Sublist (l.tasks.filter (fun t => t.priority == p))
      (l.tasks_by_priority.filter (fun t => t.priority == p)) := by
    have h2 := hsub.filter (fun t => t.priority == p)
    rwa [hidem] at h2
  have hperm : (l.tasks_by_priority.filter (fun t => t.priority == p)).Perm
      (l.tasks.filter (fun t => t.priority == p)) :=
    (List.perm_insertionSort taskLE l.tasks).filter _
  exact (hsub2.eq_of_length hperm.length_eq.symm).symm

/-- C7: `is_overdue` holds exactly when a due date is set, it is earlier than the clock,
and the task is not completed; an overdue member appears in `overdue_tasks`; after a
`complete_task` on an id, the task found at that id is never in `overdue_tasks`; and a
task with no due date is never in `overdue_tasks`. -/
theorem c7_overdue_characterization (t : Task) (now : Nat) (l : TodoList) (i : Nat) :
    (t.is_overdue now = true ↔
      ∃ d, t.due_date = some d ∧ d < now ∧ t.completed = false) ∧
    (t ∈ l.tasks → t.is_overdue now = true → t ∈ l.overdue_tasks now) ∧
    (∀ t', (l.complete_task i).2.find_task i = some t' →
      t' ∉ (l.complete_task i).2.overdue_tasks now) ∧
    (t.due_date = none → t ∉ l.overdue_tasks now) := by
  refine ⟨?_, ?_, ?_, ?_⟩
  · cases hd : t.due_date with
    | none => simp [Task.is_overdue, hd]
    | some d =>
      simp [Task.is_overdue, hd, Bool.and_eq_true, and_comm]
  · intro ht hov
    rw [TodoList.overdue_tasks]
    exact List.mem_filter.mpr ⟨ht, hov⟩
  · intro t' hfind hmem
    have hcomp : t'.completed = true := by
      rw [complete_task_eq] at hfind
      by_cases hc : l.tasks.any (fun u => u.id == i)
      · rw [if_pos hc] at hfind
        obtain ⟨u, hu⟩ : ∃ u, l.tasks.find? (fun u => u.id == i) = some u := by
          rcases List.any_eq_true.mp hc with ⟨x, hx, hpx⟩
          cases hf : l.tasks.find? (fun u => u.id == i) with
          | some u => exact ⟨u, rfl⟩
          | none =>
            rw [List.find?_eq_none] at hf
            exact absurd hpx (hf x hx)
        have hfind2 : (completeFirst l.tasks i).find? (fun u => u.id == i) = some t' :=
          hfind
        have : some u.complete = some t' := by
          rw [← find?_completeFirst_self hu]
          exact hfind2
        cases this
        rfl
      · rw [if_neg hc] at hfind
        exfalso
        have hfind2 : l.tasks.find? (fun u => u.id == i) = some t' := hfind
        have hp := List.find?_some hfind2
        exact hc (List.any_eq_true.mpr ⟨t', List.mem_of_find?_eq_some hfind2, hp⟩)
    have hov := (List.mem_filter.mp hmem).2
    rw [is_overdue_of_completed hcomp now] at hov
    exact Bool.false_ne_true hov
  · intro hd hmem
    have hov := (List.mem_filter.mp hmem).2
    simp [Task.is_overdue, hd] at hov

/-- Witness for C7 at a concrete task with a past due date. -/
theorem c7_overdue_characterization_witness :
    (⟨1, "x", false, .High, 0, some 3⟩ : Task).is_overdue 10 = true ∧
    (⟨1, "x", false, .High, 0, some 3⟩ : Task) ∈
      (⟨[⟨1, "x", false, .High, 0, some 3⟩], 2⟩ : TodoList).overdue_tasks 10 ∧
    (∀ t', ((⟨[⟨1, "x", false, .High, 0, some 3⟩], 2⟩ : TodoList).complete_task
        1).2.find_task 1 = some t' →
      t' ∉ ((⟨[⟨1, "x", false, .High, 0, some 3⟩], 2⟩ :
        TodoList).complete_task 1).2.overdue_tasks 10) ∧
    (⟨2, "y", false, .Low, 0, none⟩ : Task) ∉
      (⟨[⟨2, "y", false, .Low, 0, none⟩], 3⟩ : TodoList).overdue_tasks 10 :=
  ⟨(c7_overdue_characterization ⟨1, "x", false, .High, 0, some 3⟩ 10
      ⟨[⟨1, "x", false, .High, 0, some 3⟩], 2⟩ 1).1.mpr ⟨3, rfl, by decide, rfl⟩,
   (c7_overdue_characterization ⟨1, "x", false, .High, 0, some 3⟩ 10
      ⟨[⟨1, "x", false, .High, 0, some 3⟩], 2⟩ 1).2.1 (by decide) (by decide),
   (c7_overdue_characterization ⟨1, "x", false, .High, 0, some 3⟩ 10
      ⟨[⟨1, "x", false, .High, 0, some 3⟩], 2⟩ 1).2.2.1,
   (c7_overdue_characterization ⟨2, "y", false, .Low, 0, none⟩ 10
      ⟨[⟨2, "y", false, .Low, 0, none⟩], 3⟩ 1).2.2.2 rfl⟩

/-- One public operation cannot un-complete the task found at id `i`: if `i` is below
`next_id` and every task found at `i` is completed, the same holds afterwards. -/
theorem step_preserves_completed {l : TodoList} {i : Nat} (hi : i < l.next_id)
    (hQ : ∀ u, l.find_task i = some u → u.completed = true) (op : Op) :
    ∀ u, (applyOp l op).find_task i = some u → u.completed = true := by
  intro u hu
  cases op with
  | add title p due now =>
    rw [applyOp, add_task_eq] at hu
    have hu2 : (l.tasks ++ [Task.new l.next_id title p due now]).find?
        (fun t => t.id == i) = some u := hu
    rw [List.find?_append] at hu2
    have hnew : ([Task.new l.next_id title p due now].find? (fun t => t.id == i))
        = none := by
      rw [List.find?_eq_none]
      intro x hx
      rw [List.mem_singleton] at hx
      subst hx
      simp [Task.new]
      exact Nat.ne_of_gt hi
    rw [hnew, Option.or_none] at hu2
    exact hQ u hu2
  | complete j =>
    rw [applyOp, complete_task_eq] at hu
    by_cases hcj : l.tasks.any (fun t => t.id == j)
    · rw [if_pos hcj] at hu
      have hu2 : (completeFirst l.tasks j).find? (fun t => t.id == i) = some u := hu
      by_cases hij : j = i
      · subst hij
        obtain ⟨v, hv⟩ : ∃ v, l.tasks.find? (fun t => t.id == j) = some v := by
          rcases List.any_eq_true.mp hcj with ⟨x, hx, hpx⟩
          cases hf : l.tasks.find? (fun t => t.id == j) with
          | some v => exact ⟨v, rfl⟩
          | none =>
            rw [List.find?_eq_none] at hf
            exact absurd hpx (hf x hx)
        rw [find?_completeFirst_self hv] at hu2
        cases hu2
        rfl
      · rw [find?_completeFirst_other hij] at hu2
        exact hQ u hu2
    · rw [if_neg hcj] at hu
      exact hQ u hu
  | delete j =>
    rw [applyOp, delete_task_eq] at hu
    have hu2 : (l.tasks.filter (fun t => !(t.id == j))).find? (fun t => t.id == i)
        = some u := by
      split at hu <;> exact hu
    by_cases hij : j = i
    · subst hij
      exfalso
      have hnone : (l.tasks.filter (fun t => !(t.id == j))).find? (fun t => t.id == j)
          = none := by
        rw [List.find?_eq_none]
        intro x hx
        have hpx := (List.mem_filter.mp hx).2
        simp at hpx ⊢
        exact hpx
      rw [hnone] at hu2
      exact Option.noConfusion hu2
    · rw [find?_filter_ne hij] at hu2
      exact hQ u hu2

/-- A whole operation sequence cannot un-complete the task found at id `i`. -/
theorem ops_preserve_completed {i : Nat} (ops : List Op) :
    ∀ l : TodoList, i < l.next_id →
      (∀ u, l.find_task i = some u → u.completed = true) →
      ∀ u, (applyOps l ops).find_task i = some u → u.completed = true := by
  induction ops with
  | nil => intro l _ hQ u hu; exact hQ u hu
  | cons op ops ih =>
    intro l hi hQ u hu
    exact ih (applyOp l op) (Nat.lt_of_lt_of_le hi (next_id_le_applyOp l op))
      (step_preserves_completed hi hQ op) u hu

/-- C8: the completed flag is terminal — if the task found at id `i` in an
invariant-satisfying list is completed, then after any sequence of public operations the
task found at id `i` (if any) is still completed; since ids are never reused, no
operation ever resets that task's flag to false. -/
theorem c8_completed_is_terminal (l : TodoList) (i : Nat) (t : Task) (ops : List Op)
    (t' : Task) (hInv : Inv l) (hfind : l.find_task i = some t)
    (hc : t.completed = true)
    (hfind' : (applyOps l ops).find_task i = some t') : t'.completed = true := by
  have hfind2 : l.tasks.find? (fun u => u.id == i) = some t := hfind
  have hi : i < l.next_id := by
    have hmem := List.mem_of_find?_eq_some hfind2
    have hp := List.find?_some hfind2
    have hid : t.id = i := by simpa using hp
    exact hid ▸ hInv t hmem
  have hQ : ∀ u, l.find_task i = some u → u.completed = true := by
    intro u hu
    rw [hfind] at hu
    cases hu
    exact hc
  exact ops_preserve_completed ops l hi hQ t' hfind'

/-- Witness for C8: a completed task survives an add, a repeat complete and an unrelated
delete with its flag still set. -/
theorem c8_completed_is_terminal_witness :
    ((applyOps ⟨[⟨1, "a", true, .High, 0, some 3⟩], 2⟩
        [.add "b" .Low none 7, .complete 1, .delete 2]).find_task 1
      = some ⟨1, "a", true, .High, 0, some 3⟩) ∧
    (⟨1, "a", true, .High, 0, some 3⟩ : Task).completed = true :=
  ⟨by decide,
   c8_completed_is_terminal ⟨[⟨1, "a", true, .High, 0, some 3⟩], 2⟩ 1
     ⟨1, "a", true, .High, 0, some 3⟩ [.add "b" .Low none 7, .complete 1, .delete 2]
     ⟨1, "a", true, .High, 0, some 3⟩ (by decide) rfl rfl (by decide)⟩

/-- C9: the priority parser accepts exactly the case-insensitive tokens high/h (yielding
High), medium/m (yielding Medium) and low/l (yielding Low), and errors on every other
string. -/
theorem c9_priority_tokens (s : String) :
    (Priority.from_str s = .ok .High ↔
      (toLowerStr s = "high" ∨ toLowerStr s = "h")) ∧
    (Priority.from_str s = .ok .Medium ↔
      (toLowerStr s = "medium" ∨ toLowerStr s = "m")) ∧
    (Priority.from_str s = .ok .Low ↔
      (toLowerStr s = "low" ∨ toLowerStr s = "l")) ∧
    (Priority.from_str s = .error ("Invalid priority: " ++ s) ↔
      toLowerStr s ∉ (["high", "h", "medium", "m", "low", "l"] : List String)) := by
  simp only [Priority.from_str]
  split_ifs with h1 h2 h3
  · rcases h1 with h | h <;> rw [h] <;> simp
  · rcases h2 with h | h <;> rw [h] <;> simp
  · rcases h3 with h | h <;> rw [h] <;> simp
  · push_neg at h1 h2 h3
    simp [h1.1, h1.2, h2.1, h2.2, h3.1, h3.2]

/-- Witness for C9 on concrete inputs of every kind: mixed case long token, single-letter
token, and a rejected string. -/
theorem c9_priority_tokens_witness :
    Priority.from_str "HiGh" = .ok .High ∧
    Priority.from_str "M" = .ok .Medium ∧
    Priority.from_str "low" = .ok .Low ∧
    Priority.from_str "urgent" = .error ("Invalid priority: " ++ "urgent") :=
  ⟨(c9_priority_tokens "HiGh").1.mpr (Or.inl (by decide)),
   (c9_priority_tokens "M").2.1.mpr (Or.inr (by decide)),
   (c9_priority_tokens "low").2.2.1.mpr (Or.inl (by decide)),
   (c9_priority_tokens "urgent").2.2.2.mpr (by decide)⟩

end TodoCli
